import Mathlib

/-!
Verification of the Salt Index ingestion → batching → aggregation core.

This file gives a shallow embedding, in Lean, of the pure computational
content of the JavaScript source:

* `AggregationEngine` (weighted tracker roll-up, bucket upsert-merge,
  per-user aggregates, `getTimeBucket`);
* `BatchProcessor` (per-tracker batching, readiness, chunk dispatch,
  failure handling);
* `TelegramBotManager.routeMessage` (topic routing) and
  `TelegramConnector.handleMessage` (dedup + queueing).

Numbers are modelled over `ℚ`/`ℤ`/`ℕ` (exact arithmetic); JS objects used
as string-keyed maps are modelled as functions `String → Option _` or, when
iteration order matters, as first-occurrence-ordered key lists.
-/

namespace SaltIndex

/-! ## Aggregation engine: tracker-level weighted roll-up -/

/-- A batch message as the aggregation engine reads it: only `sourceId` and
`author.id` are consumed by the aggregation code. -/
structure AMsg where
  sourceId : String
  authorId : String
  deriving DecidableEq, Repr

/-- First-occurrence-ordered key list of a string-keyed grouping: the key
order of the JS object built by `groupBySource`/`groupByTracker` (string
keys enumerate in insertion order under `Object.entries`). -/
def groupKeys {α : Type} (key : α → String) (msgs : List α) : List String :=
  msgs.foldl (fun ks m => if key m ∈ ks then ks else ks ++ [key m]) []

/-- `AggregationEngine.groupBySource`: the messages grouped under source `s`. -/
def groupBySource (msgs : List AMsg) (s : String) : List AMsg :=
  msgs.filter (fun m => m.sourceId = s)

/-- The source keys of a batch, in JS object iteration order. -/
def sourceKeys (msgs : List AMsg) : List String :=
  groupKeys (·.sourceId) msgs

/-- `sourceMessages.length / messages.length` for source `s`. -/
def sourceProportion (msgs : List AMsg) (s : String) : ℚ :=
  ((groupBySource msgs s).length : ℚ) / (msgs.length : ℚ)

/-- The weight `createTrackerAggregates` actually uses for a source:
`sourceWeights[sourceId] || 1.0`.  JS `||` substitutes `1.0` both for a
missing entry and for a configured weight of `0` (falsy). -/
def effWeight (w : Option ℚ) : ℚ :=
  match w with
  | none => 1
  | some q => if q = 0 then 1 else q

/-- One iteration of the weighted-sentiment loop in
`createTrackerAggregates`: `weightedSentiment += sentimentScore * proportion
* weight; totalWeight += weight * proportion`. -/
def trackerStep (msgs : List AMsg) (weights : String → Option ℚ) (S : ℚ)
    (acc : ℚ × ℚ) (s : String) : ℚ × ℚ :=
  let w := effWeight (weights s)
  let p := sourceProportion msgs s
  (acc.1 + S * p * w, acc.2 + w * p)

/-- The `(weightedSentiment, totalWeight)` pair after the loop over
`Object.entries(bySource)`. -/
def trackerWeighted (msgs : List AMsg) (weights : String → Option ℚ) (S : ℚ) : ℚ × ℚ :=
  (sourceKeys msgs).foldl (trackerStep msgs weights S) (0, 0)

/-- `finalSentiment = totalWeight > 0 ? weightedSentiment / totalWeight
: llmResult.sentimentScore`. -/
def finalSentiment (msgs : List AMsg) (weights : String → Option ℚ) (S : ℚ) : ℚ :=
  let wt := trackerWeighted msgs weights S
  if 0 < wt.2 then wt.1 / wt.2 else S

/-- One element of the `sourceContributions` breakdown recorded alongside
the tracker aggregate. -/
structure SourceContribution where
  sourceId : String
  weight : ℚ
  sentiment : ℚ
  messageCount : ℕ
  contribution : ℚ
  deriving DecidableEq, Repr

/-- The `sourceContributions` array built by `createTrackerAggregates`. -/
def sourceContributions (msgs : List AMsg) (weights : String → Option ℚ) (S : ℚ) :
    List SourceContribution :=
  (sourceKeys msgs).map (fun s =>
    { sourceId := s
      weight := effWeight (weights s)
      sentiment := S
      messageCount := (groupBySource msgs s).length
      contribution := sourceProportion msgs s })

/-- The spec's numerator `Σ(sentimentScore × proportion × weight)`, taken
over the *configured* weights `w` (spec §4.4 step 2 / claim C1). -/
def claimedWeightedSum (msgs : List AMsg) (w : String → ℚ) (S : ℚ) : ℚ :=
  ((sourceKeys msgs).map (fun s => S * sourceProportion msgs s * w s)).sum

/-- The spec's denominator `Σ(weight × proportion)` over the configured
weights `w`. -/
def claimedTotalWeight (msgs : List AMsg) (w : String → ℚ) : ℚ :=
  ((sourceKeys msgs).map (fun s => w s * sourceProportion msgs s)).sum

/-! ### Helper lemmas -/

theorem groupKeys_foldl_mem {α : Type} (key : α → String) (msgs : List α)
    (ks : List String) (t : String) :
    (t ∈ msgs.foldl (fun ks m => if key m ∈ ks then ks else ks ++ [key m]) ks) ↔
      (t ∈ ks ∨ ∃ m ∈ msgs, key m = t) := by
  induction msgs generalizing ks with
  | nil => simp
  | cons m rest ih =>
    simp only [List.foldl_cons]
    rw [ih]
    have hks : (t ∈ if key m ∈ ks then ks else ks ++ [key m]) ↔
        (t ∈ ks ∨ key m = t) := by
      by_cases h : key m ∈ ks
      · simp only [if_pos h]
        constructor
        · exact fun h1 => Or.inl h1
        · rintro (h1 | h1)
          · exact h1
          · exact h1 ▸ h
      · simp only [if_neg h, List.mem_append, List.mem_singleton]
        constructor
        · rintro (h1 | h1)
          · exact Or.inl h1
          · exact Or.inr h1.symm
        · rintro (h1 | h1)
          · exact Or.inl h1
          · exact Or.inr h1.symm
    rw [hks]
    simp only [List.mem_cons]
    constructor
    · rintro ((h1 | h1) | ⟨m', hm', rfl⟩)
      · exact Or.inl h1
      · exact Or.inr ⟨m, Or.inl rfl, h1⟩
      · exact Or.inr ⟨m', Or.inr hm', rfl⟩
    · rintro (h1 | ⟨m', hm' | hm', rfl⟩)
      · exact Or.inl (Or.inl h1)
      · subst hm'; exact Or.inl (Or.inr rfl)
      · exact Or.inr ⟨m', hm', rfl⟩

theorem mem_groupKeys {α : Type} (key : α → String) (msgs : List α) (t : String) :
    t ∈ groupKeys key msgs ↔ ∃ m ∈ msgs, key m = t := by
  rw [groupKeys, groupKeys_foldl_mem]
  simp

theorem mem_sourceKeys (msgs : List AMsg) (s : String) :
    s ∈ sourceKeys msgs ↔ ∃ m ∈ msgs, m.sourceId = s :=
  mem_groupKeys _ msgs s

/-- A fold that accumulates two sums componentwise equals the pair of map-sums. -/
theorem foldl_pair_sum (f g : String → ℚ) (ks : List String) (a b : ℚ) :
    ks.foldl (fun acc s => (acc.1 + f s, acc.2 + g s)) (a, b) =
      (a + (ks.map f).sum, b + (ks.map g).sum) := by
  induction ks generalizing a b with
  | nil => simp
  | cons k rest ih =>
    simp only [List.foldl_cons, List.map_cons, List.sum_cons]
    rw [ih]
    ring_nf

theorem trackerWeighted_eq (msgs : List AMsg) (weights : String → Option ℚ) (S : ℚ) :
    trackerWeighted msgs weights S =
      (claimedWeightedSum msgs (fun s => effWeight (weights s)) S,
       claimedTotalWeight msgs (fun s => effWeight (weights s))) := by
  have hstep : trackerStep msgs weights S =
      fun (acc : ℚ × ℚ) s => (acc.1 + S * sourceProportion msgs s * effWeight (weights s),
        acc.2 + effWeight (weights s) * sourceProportion msgs s) := rfl
  rw [trackerWeighted, hstep, foldl_pair_sum]
  simp [claimedWeightedSum, claimedTotalWeight]

/-- The numerator is always `sentimentScore` times the denominator. -/
theorem claimedWeightedSum_eq_mul (msgs : List AMsg) (w : String → ℚ) (S : ℚ) :
    claimedWeightedSum msgs w S = S * claimedTotalWeight msgs w := by
  unfold claimedWeightedSum claimedTotalWeight
  induction sourceKeys msgs with
  | nil => simp
  | cons k ks ih =>
    simp only [List.map_cons, List.sum_cons, ih]
    ring

theorem sourceProportion_nonneg (msgs : List AMsg) (s : String) :
    0 ≤ sourceProportion msgs s := by
  unfold sourceProportion
  positivity

theorem sourceProportion_pos (msgs : List AMsg) (s : String)
    (h : s ∈ sourceKeys msgs) : 0 < sourceProportion msgs s := by
  obtain ⟨m, hm, rfl⟩ := (mem_sourceKeys msgs s).mp h
  have hmem : m ∈ groupBySource msgs m.sourceId := by
    simp [groupBySource, List.mem_filter, hm]
  have h1 : 0 < (groupBySource msgs m.sourceId).length := List.length_pos.mpr
    (List.ne_nil_of_mem hmem)
  have h2 : 0 < msgs.length := List.length_pos.mpr (List.ne_nil_of_mem hm)
  unfold sourceProportion
  apply div_pos <;> exact_mod_cast ‹_›

theorem sum_map_pos {α : Type} (l : List α) (f : α → ℚ)
    (hpos : ∀ x ∈ l, 0 < f x) (hne : l ≠ []) : 0 < (l.map f).sum := by
  cases l with
  | nil => exact absurd rfl hne
  | cons x rest =>
    simp only [List.map_cons, List.sum_cons]
    have h1 : 0 < f x := hpos x (List.mem_cons_self x rest)
    have h2 : 0 ≤ (rest.map f).sum := by
      apply List.sum_nonneg
      intro q hq
      obtain ⟨y, hy, rfl⟩ := List.mem_map.mp hq
      exact le_of_lt (hpos y (List.mem_cons_of_mem x hy))
    linarith

theorem sourceKeys_ne_nil (msgs : List AMsg) (h : msgs ≠ []) :
    sourceKeys msgs ≠ [] := by
  cases msgs with
  | nil => exact absurd rfl h
  | cons m rest =>
    intro hk
    have : m.sourceId ∈ sourceKeys (m :: rest) :=
      (mem_sourceKeys _ _).mpr ⟨m, List.mem_cons_self m rest, rfl⟩
    rw [hk] at this
    exact absurd this (List.not_mem_nil _)

theorem effWeight_pos (w : Option ℚ) (hw : ∀ q, w = some q → 0 ≤ q) :
    0 < effWeight w := by
  cases w with
  | none => norm_num [effWeight]
  | some q =>
    by_cases hq : q = 0
    · simp [effWeight, hq]
    · have := hw q rfl
      simp only [effWeight, if_neg hq]
      exact lt_of_le_of_ne this (Ne.symm hq)

/-- With every configured weight in `[0,1]`, the loop's total weight is
strictly positive for a nonempty batch (the `|| 1.0` fallback makes every
effective weight positive). -/
theorem trackerTotalWeight_pos (msgs : List AMsg) (weights : String → Option ℚ)
    (S : ℚ) (hmsgs : msgs ≠ [])
    (hw : ∀ s q, weights s = some q → 0 ≤ q) :
    0 < (trackerWeighted msgs weights S).2 := by
  rw [trackerWeighted_eq]
  unfold claimedTotalWeight
  apply sum_map_pos
  · intro s hs
    have h1 : 0 < effWeight (weights s) := effWeight_pos _ (hw s)
    have h2 : 0 < sourceProportion msgs s := sourceProportion_pos msgs s hs
    exact mul_pos h1 h2
  · exact sourceKeys_ne_nil msgs hmsgs

/-! ### Claims about the tracker-level weighted roll-up -/

/-- C10: for every batch with at least one message, the tracker-level
sentiment recorded by `createTrackerAggregates` equals the classifier's
holistic `sentimentScore`, regardless of the configured weights and the
message proportions: every loop term multiplies the same score, so
`weightedSentiment = sentimentScore * totalWeight` and the quotient (or the
zero-total-weight fallback) is the score itself. -/
theorem trackerSentiment_eq_classifier (msgs : List AMsg)
    (weights : String → Option ℚ) (S : ℚ) (_hmsgs : msgs ≠ []) :
    finalSentiment msgs weights S = S := by
  unfold finalSentiment
  rw [trackerWeighted_eq]
  by_cases h : 0 < claimedTotalWeight msgs (fun s => effWeight (weights s))
  · simp only [if_pos h, claimedWeightedSum_eq_mul]
    field_simp
  · simp [h]

/-- Witness for `trackerSentiment_eq_classifier` at a concrete input. -/
theorem trackerSentiment_eq_classifier_witness :
    finalSentiment [⟨"a", "u"⟩] (fun _ => some (1/2)) 40 = 40 :=
  trackerSentiment_eq_classifier [⟨"a", "u"⟩] (fun _ => some (1/2)) 40 (by simp)

/-- C1: the recorded subject-level sentiment equals
`Σ(sentimentScore × proportion × configuredWeight) / Σ(configuredWeight ×
proportion)` whenever the configured weights are nonnegative and that
denominator is positive (both sides then equal the classifier score). -/
theorem trackerWeightedSentiment_formula (msgs : List AMsg) (w : String → ℚ)
    (S : ℚ) (_hw : ∀ s, 0 ≤ w s) (hd : 0 < claimedTotalWeight msgs w) :
    finalSentiment msgs (fun s => some (w s)) S =
      claimedWeightedSum msgs w S / claimedTotalWeight msgs w := by
  have heff : ∀ s, w s ≤ effWeight (some (w s)) := by
    intro s
    by_cases h : w s = 0
    · simp [effWeight, h]
    · simp [effWeight, h]
  have hcode : claimedTotalWeight msgs w ≤
      claimedTotalWeight msgs (fun s => effWeight (some (w s))) := by
    unfold claimedTotalWeight
    apply List.sum_le_sum
    intro s _
    exact mul_le_mul_of_nonneg_right (heff s) (sourceProportion_nonneg msgs s)
  have hpos : 0 < claimedTotalWeight msgs (fun s => effWeight (some (w s))) :=
    lt_of_lt_of_le hd hcode
  unfold finalSentiment
  rw [trackerWeighted_eq]
  simp only [if_pos hpos, claimedWeightedSum_eq_mul]
  rw [mul_div_assoc, mul_div_assoc, div_self (ne_of_gt hpos),
    div_self (ne_of_gt hd)]

/-- The spec's worked example batch: source `A` with 6 of 10 messages,
source `B` with 4 of 10. -/
def specExampleBatch : List AMsg :=
  List.replicate 6 ⟨"A", "u"⟩ ++ List.replicate 4 ⟨"B", "v"⟩

/-- The spec's worked example weights: `A ↦ 1.0`, `B ↦ 0.5`. -/
def specExampleWeights : String → ℚ := fun t => if t = "A" then 1 else 1/2

/-- Witness for `trackerWeightedSentiment_formula`: the spec's worked
example — source `A` (weight 1.0, 6 of 10 messages) and source `B`
(weight 0.5, 4 of 10 messages), classifier subject sentiment 40; the
denominator `0.6×1.0 + 0.4×0.5 = 0.8` is positive and the recorded value is
`(40×0.6×1.0 + 40×0.4×0.5) / 0.8 = 40`. -/
theorem trackerWeightedSentiment_formula_witness :
    (∀ s, 0 ≤ specExampleWeights s) ∧
    0 < claimedTotalWeight specExampleBatch specExampleWeights ∧
    finalSentiment specExampleBatch (fun s => some (specExampleWeights s)) 40 =
      claimedWeightedSum specExampleBatch specExampleWeights 40 /
        claimedTotalWeight specExampleBatch specExampleWeights ∧
    claimedWeightedSum specExampleBatch specExampleWeights 40 /
      claimedTotalWeight specExampleBatch specExampleWeights = 40 := by
  have hw : ∀ s, 0 ≤ specExampleWeights s := by
    intro s
    unfold specExampleWeights
    split <;> norm_num
  have h1 : sourceKeys specExampleBatch = ["A", "B"] := by decide
  have h2 : (groupBySource specExampleBatch "A").length = 6 := by decide
  have h3 : (groupBySource specExampleBatch "B").length = 4 := by decide
  have h4 : specExampleBatch.length = 10 := by decide
  have hden : claimedTotalWeight specExampleBatch specExampleWeights = 4/5 := by
    rw [claimedTotalWeight, h1]
    simp [sourceProportion, h2, h3, h4, specExampleWeights]
    norm_num
  have hnum : claimedWeightedSum specExampleBatch specExampleWeights 40 = 32 := by
    rw [claimedWeightedSum, h1]
    simp [sourceProportion, h2, h3, h4, specExampleWeights]
    norm_num
  refine ⟨hw, by rw [hden]; norm_num, ?_, by rw [hnum, hden]; norm_num⟩
  exact trackerWeightedSentiment_formula specExampleBatch specExampleWeights 40 hw
    (by rw [hden]; norm_num)

/-- C2 counterexample: a single source `"a"` configured with weight 0
(one message, classifier score 40).  The roll-up uses
`sourceWeights[sourceId] || 1.0`, and `0 || 1.0` is `1.0` in JS, so the
contribution breakdown records weight 1 (not the configured 0) and the loop
total weight is 1 (not 0) — the weight-0 source is *not* honored and the
zero-total-weight fallback is not taken. -/
theorem weightZero_counterexample :
    (sourceContributions [⟨"a", "u"⟩] (fun _ => some 0) 40).map (·.weight) = [1] ∧
    (trackerWeighted [⟨"a", "u"⟩] (fun _ => some 0) 40).2 = 1 ∧
    (1 : ℚ) ≠ 0 := by
  have h1 : sourceKeys [(⟨"a", "u"⟩ : AMsg)] = ["a"] := by decide
  have h2 : (groupBySource [(⟨"a", "u"⟩ : AMsg)] "a").length = 1 := by decide
  refine ⟨?_, ?_, by norm_num⟩
  · rw [sourceContributions, h1]
    simp [effWeight]
  · rw [trackerWeighted_eq]
    dsimp only
    rw [claimedTotalWeight, h1]
    simp [sourceProportion, h2, effWeight]

/-- C2 amended: `sourceWeights[sourceId] || 1.0` maps a configured weight
of 0 — and a missing weight — to 1.0; consequently, for any nonempty batch
whose configured weights lie in `[0,1]`, the breakdown records these
effective (`|| 1.0`) weights, the loop's total weight is strictly positive,
and the recorded sentiment is the weighted quotient (the raw-score fallback
branch is never taken). -/
theorem weightZeroTreatedAsOne (msgs : List AMsg) (weights : String → Option ℚ)
    (S : ℚ) (hmsgs : msgs ≠ [])
    (hw : ∀ s q, weights s = some q → 0 ≤ q ∧ q ≤ 1) :
    effWeight (some 0) = 1 ∧
    effWeight none = 1 ∧
    0 < (trackerWeighted msgs weights S).2 ∧
    finalSentiment msgs weights S =
      (trackerWeighted msgs weights S).1 / (trackerWeighted msgs weights S).2 ∧
    (sourceContributions msgs weights S).map (·.weight) =
      (sourceKeys msgs).map (fun s => effWeight (weights s)) := by
  have hpos : 0 < (trackerWeighted msgs weights S).2 :=
    trackerTotalWeight_pos msgs weights S hmsgs
      (fun s q h => (hw s q h).1)
  refine ⟨by decide, by decide, hpos, ?_, ?_⟩
  · unfold finalSentiment
    simp [hpos]
  · simp [sourceContributions]

/-- Witness for `weightZeroTreatedAsOne` at a concrete input: a two-source
batch where source `"a"` is configured with weight 0 and source `"b"` with
weight 1/2. -/
theorem weightZeroTreatedAsOne_witness :
    ([⟨"a", "u"⟩, ⟨"b", "v"⟩] : List AMsg) ≠ [] ∧
    (∀ s q, (fun t => if t = "a" then some (0:ℚ) else some (1/2)) s = some q →
      0 ≤ q ∧ q ≤ 1) ∧
    (0 < (trackerWeighted [⟨"a", "u"⟩, ⟨"b", "v"⟩]
        (fun t => if t = "a" then some 0 else some (1/2)) 40).2 ∧
      (sourceContributions [⟨"a", "u"⟩, ⟨"b", "v"⟩]
          (fun t => if t = "a" then some 0 else some (1/2)) 40).map (·.weight) =
        (sourceKeys [⟨"a", "u"⟩, ⟨"b", "v"⟩]).map
          (fun s => effWeight ((fun t => if t = "a" then some 0 else some (1/2)) s))) := by
  have hw : ∀ s q, (fun t => if t = "a" then some (0:ℚ) else some (1/2)) s = some q →
      0 ≤ q ∧ q ≤ 1 := by
    intro s q h
    by_cases hs : s = "a" <;> simp [hs] at h <;> rw [← h] <;> norm_num
  have h := weightZeroTreatedAsOne [⟨"a", "u"⟩, ⟨"b", "v"⟩]
    (fun t => if t = "a" then some 0 else some (1/2)) 40 (by simp) hw
  exact ⟨by simp, hw, h.2.2.1, h.2.2.2.2⟩

/-! ## Aggregation engine: bucket upsert-merge (`ON CONFLICT ... DO UPDATE`) -/

/-- SQLite `json_patch(target, patch)` on a flat object of tag counts
(RFC 7386 merge patch): a key present in the patch *replaces* the target's
value; keys absent from the patch keep the target's value.  Tag-count
patches never contain JSON `null`, so key removal does not occur. -/
def jsonPatch (target patch : String → Option ℤ) : String → Option ℤ :=
  fun k =>
    match patch k with
    | some v => some v
    | none => target k

/-- A `source_aggregates` bucket row (the columns touched by the upsert). -/
structure SourceBucketRow where
  sentimentScore : ℚ
  messageCount : ℚ
  authorCount : ℤ
  tagCounts : String → Option ℤ

/-- The `ON CONFLICT(source_id, bucket, bucket_start) DO UPDATE` merge of
`createSourceAggregates`: weighted-mean sentiment, summed message count,
`MAX` author count, `json_patch`ed tag counts. -/
def mergeSourceBucket (old new : SourceBucketRow) : SourceBucketRow :=
  { sentimentScore := (old.sentimentScore * old.messageCount +
      new.sentimentScore * new.messageCount) / (old.messageCount + new.messageCount)
    messageCount := old.messageCount + new.messageCount
    authorCount := max old.authorCount new.authorCount
    tagCounts := jsonPatch old.tagCounts new.tagCounts }

/-- The insert-or-merge upsert: insert the contribution as the initial row
when the bucket row does not exist, merge otherwise. -/
def upsertSourceBucket : Option SourceBucketRow → SourceBucketRow → SourceBucketRow
  | none, contrib => contrib
  | some old, contrib => mergeSourceBucket old contrib

/-- A `tracker_aggregates` bucket row (the columns touched by the upsert). -/
structure TrackerBucketRow where
  sentimentScore : ℚ
  messageCount : ℚ
  authorCount : ℤ
  tagCounts : String → Option ℤ
  sourceContributions : List SourceContribution

/-- The `ON CONFLICT(tracker_id, bucket, bucket_start) DO UPDATE` merge of
`createTrackerAggregates`: same formulas as the source-level merge, plus
`source_contributions = ?` (wholesale replacement by the new batch's
breakdown). -/
def mergeTrackerBucket (old new : TrackerBucketRow) : TrackerBucketRow :=
  { sentimentScore := (old.sentimentScore * old.messageCount +
      new.sentimentScore * new.messageCount) / (old.messageCount + new.messageCount)
    messageCount := old.messageCount + new.messageCount
    authorCount := max old.authorCount new.authorCount
    tagCounts := jsonPatch old.tagCounts new.tagCounts
    sourceContributions := new.sourceContributions }

/-- Insert-or-merge upsert for tracker bucket rows. -/
def upsertTrackerBucket : Option TrackerBucketRow → TrackerBucketRow → TrackerBucketRow
  | none, contrib => contrib
  | some old, contrib => mergeTrackerBucket old contrib

/-- C4 counterexample: two contributions to the same source-level bucket
with tag counts `{x: 1}` and `{x: 2}`.  The bucket tag merge is SQLite
`json_patch`, which *replaces* values instead of summing them, so
insert-A-then-merge-B records `x = 2` while insert-B-then-merge-A records
`x = 1`: the merge is neither a counter-wise sum nor order-independent for
tags, refuting the claim. -/
theorem bucketMerge_tag_counterexample :
    (upsertSourceBucket
        (some (upsertSourceBucket none
          ⟨10, 1, 1, fun k => if k = "x" then some 1 else none⟩))
        ⟨20, 1, 1, fun k => if k = "x" then some 2 else none⟩).tagCounts "x" = some 2 ∧
    (upsertSourceBucket
        (some (upsertSourceBucket none
          ⟨20, 1, 1, fun k => if k = "x" then some 2 else none⟩))
        ⟨10, 1, 1, fun k => if k = "x" then some 1 else none⟩).tagCounts "x" = some 1 ∧
    (some (2 : ℤ)) ≠ some 1 := by
  refine ⟨rfl, rfl, by simp⟩

/-- C4 amended: merging two contributions `A`, `B` into the same bucket row
is order-independent for the weighted sentiment mean, the message count and
the author count (exact arithmetic), at both the source level and the
tracker level; the tag counts, however, are merged with `json_patch`
(replace, i.e. last-write-wins on each key), so insert-A-then-merge-B
records `B`'s value on every key `B` mentions (and similarly the tracker
merge replaces the whole `source_contributions` payload with the newest
batch's breakdown). -/
theorem bucketMerge_order (A B : SourceBucketRow) (A' B' : TrackerBucketRow) :
    (upsertSourceBucket (some (upsertSourceBucket none A)) B).sentimentScore =
      (upsertSourceBucket (some (upsertSourceBucket none B)) A).sentimentScore ∧
    (upsertSourceBucket (some (upsertSourceBucket none A)) B).messageCount =
      (upsertSourceBucket (some (upsertSourceBucket none B)) A).messageCount ∧
    (upsertSourceBucket (some (upsertSourceBucket none A)) B).authorCount =
      (upsertSourceBucket (some (upsertSourceBucket none B)) A).authorCount ∧
    (upsertSourceBucket (some (upsertSourceBucket none A)) B).tagCounts =
      jsonPatch A.tagCounts B.tagCounts ∧
    (upsertTrackerBucket (some (upsertTrackerBucket none A')) B').sentimentScore =
      (upsertTrackerBucket (some (upsertTrackerBucket none B')) A').sentimentScore ∧
    (upsertTrackerBucket (some (upsertTrackerBucket none A')) B').messageCount =
      (upsertTrackerBucket (some (upsertTrackerBucket none B')) A').messageCount ∧
    (upsertTrackerBucket (some (upsertTrackerBucket none A')) B').authorCount =
      (upsertTrackerBucket (some (upsertTrackerBucket none B')) A').authorCount ∧
    (upsertTrackerBucket (some (upsertTrackerBucket none A')) B').tagCounts =
      jsonPatch A'.tagCounts B'.tagCounts ∧
    (upsertTrackerBucket (some (upsertTrackerBucket none A')) B').sourceContributions =
      B'.sourceContributions := by
  refine ⟨?_, ?_, ?_, rfl, ?_, ?_, ?_, rfl, rfl⟩
  · show (A.sentimentScore * A.messageCount + B.sentimentScore * B.messageCount) /
      (A.messageCount + B.messageCount) =
        (B.sentimentScore * B.messageCount + A.sentimentScore * A.messageCount) /
          (B.messageCount + A.messageCount)
    rw [add_comm (A.sentimentScore * A.messageCount), add_comm A.messageCount]
  · exact add_comm A.messageCount B.messageCount
  · exact max_comm A.authorCount B.authorCount
  · show (A'.sentimentScore * A'.messageCount + B'.sentimentScore * B'.messageCount) /
      (A'.messageCount + B'.messageCount) =
        (B'.sentimentScore * B'.messageCount + A'.sentimentScore * A'.messageCount) /
          (B'.messageCount + A'.messageCount)
    rw [add_comm (A'.sentimentScore * A'.messageCount), add_comm A'.messageCount]
  · exact add_comm A'.messageCount B'.messageCount
  · exact max_comm A'.authorCount B'.authorCount

/-! ## Aggregation engine: `getTimeBucket` -/

/-- A local wall-clock timestamp in a no-DST model: `dayOfYear` is 1-based
(Jan 1 = 1) and every day is exactly 86 400 000 ms, so instants are ms
offsets from Jan 1 00:00:00.000 of the timestamp's year (negative offsets
reach into the previous year).  `getMonth`/`getDate` are collapsed into
`dayOfYear`, which is faithful because `getTimeBucket` only ever rebuilds
dates within the same day or counts whole days from year start. -/
structure Wallclock where
  dayOfYear : ℕ
  hour : ℕ
  minute : ℕ
  second : ℕ
  ms : ℕ
  deriving DecidableEq, Repr

/-- `date.getTime()` as ms since Jan 1 00:00 of the same year. -/
def msOfWallclock (t : Wallclock) : ℤ :=
  ((t.dayOfYear : ℤ) - 1) * 86400000 + t.hour * 3600000 + t.minute * 60000 +
    t.second * 1000 + t.ms

/-- The `unit` part of a parsed, valid bucket label `<N><unit>`. -/
inductive BucketUnit
  | min
  | hour
  | day
  deriving DecidableEq, Repr

/-- `AggregationEngine.getTimeBucket` for a parsed `<num><unit>` label,
returning `(bucketStart, bucketEnd)` as ms offsets from Jan 1 00:00 of the
timestamp's year.  The `day` case mirrors the source: `dayOfYear =
Math.floor((date − new Date(year,0,0)) / 86400000)` where `new Date(year,
0, 0)` is Dec 31 of the previous year (offset `−86400000`), then
`bucketStart = yearStart + (Math.floor(dayOfYear/num)*num − 1) * 86400000`;
the trailing `setHours(0,0,0,0)` is a no-op in the no-DST model because
that offset is already a whole number of days. -/
def getTimeBucket (t : Wallclock) (num : ℕ) (u : BucketUnit) : ℤ × ℤ :=
  match u with
  | .min =>
    let mins := t.minute / num * num
    let bucketStart : ℤ := ((t.dayOfYear : ℤ) - 1) * 86400000 +
      t.hour * 3600000 + mins * 60000
    (bucketStart, bucketStart + num * 60000)
  | .hour =>
    let hours := t.hour / num * num
    let bucketStart : ℤ := ((t.dayOfYear : ℤ) - 1) * 86400000 + hours * 3600000
    (bucketStart, bucketStart + num * 3600000)
  | .day =>
    let dayOfYear : ℤ := (msOfWallclock t - (-86400000)).fdiv 86400000
    let bucketDayStart : ℤ := dayOfYear.fdiv num * num
    let bucketStart : ℤ := (bucketDayStart - 1) * 86400000
    (bucketStart, bucketStart + num * 86400000)

/-- Modelled from the claim's words: a `min` bucket starts at the timestamp
truncated down to the nearest multiple of `num` minutes within the current
hour and ends `num` minutes later. -/
def claimedMinBucket (t : Wallclock) (num : ℕ) : ℤ × ℤ :=
  let start : ℤ := ((t.dayOfYear : ℤ) - 1) * 86400000 + t.hour * 3600000 +
    (t.minute / num * num) * 60000
  (start, start + num * 60000)

/-- Modelled from the claim's words: an `hour` bucket starts at the
timestamp truncated down to the nearest multiple of `num` hours within the
current day and ends `num` hours later. -/
def claimedHourBucket (t : Wallclock) (num : ℕ) : ℤ × ℤ :=
  let start : ℤ := ((t.dayOfYear : ℤ) - 1) * 86400000 +
    (t.hour / num * num) * 3600000
  (start, start + num * 3600000)

/-- Modelled from the claim's words: a `day` bucket "starts at (day-of-year
integer-divided by N, multiplied back) days from year start", i.e.
`yearStart + (dayOfYear / N * N)` days — anchored to January 1st. -/
def claimedDayBucketStart (t : Wallclock) (num : ℕ) : ℤ :=
  ((t.dayOfYear / num * num : ℕ) : ℤ) * 86400000

/-- C5 counterexample: January 10, 00:00:00.000 with a `7day` bucket.  The
code's 1-based `dayOfYear` is 10, `bucketDayStart = 10/7*7 = 7`, and the
recorded start is `yearStart + (7 − 1) days = Jan 7` (offset 518400000 ms),
whereas the claimed rule "(day-of-year div N)·N days from year start" gives
`yearStart + 7 days = Jan 8` (offset 604800000 ms): the code's day buckets
are anchored one day *before* the N-day grid from January 1st (the first
bucket of a year starts on Dec 31 of the previous year), so the claimed
day-bucket rule does not hold. -/
theorem dayBucket_counterexample :
    (getTimeBucket ⟨10, 0, 0, 0, 0⟩ 7 .day).1 = 518400000 ∧
    claimedDayBucketStart ⟨10, 0, 0, 0, 0⟩ 7 = 604800000 ∧
    (518400000 : ℤ) ≠ 604800000 := by
  refine ⟨by decide, by decide, by decide⟩

/-- C5 amended: for every in-range timestamp and valid label, the `min` and
`hour` windows are exactly the claimed calendar-aligned truncations (so the
claim's `5min` example holds: 12:07:30 buckets to [12:05:00, 12:10:00)),
but a `day` window starts at `(dayOfYear / N · N − 1)` days after January
1st — one day *earlier* than the claimed `(dayOfYear div N)·N` days from
year start — where `dayOfYear` is 1-based; its end is `N` days after its
start. -/
theorem getTimeBucket_rule (t : Wallclock) (num : ℕ) (h1 : 1 ≤ num)
    (_hd : 1 ≤ t.dayOfYear) (hh : t.hour < 24) (hm : t.minute < 60)
    (hs : t.second < 60) (hms : t.ms < 1000) :
    getTimeBucket t num .min = claimedMinBucket t num ∧
    getTimeBucket t num .hour = claimedHourBucket t num ∧
    getTimeBucket ⟨1, 12, 7, 30, 0⟩ 5 .min = (43500000, 43800000) ∧
    (getTimeBucket t num .day).1 = claimedDayBucketStart t num - 86400000 ∧
    (getTimeBucket t num .day).2 = (getTimeBucket t num .day).1 + num * 86400000 := by
  refine ⟨rfl, rfl, by decide, ?_, rfl⟩
  show (((msOfWallclock t - (-86400000)).fdiv 86400000).fdiv num * num - 1) *
      86400000 = claimedDayBucketStart t num - 86400000
  have hdoy : (msOfWallclock t - (-86400000)).fdiv 86400000 = (t.dayOfYear : ℤ) := by
    rw [Int.fdiv_eq_ediv _ (by norm_num)]
    unfold msOfWallclock
    omega
  rw [hdoy, Int.fdiv_eq_ediv _ (by positivity)]
  have hdiv : (t.dayOfYear : ℤ) / (num : ℤ) = ((t.dayOfYear / num : ℕ) : ℤ) :=
    (Int.natCast_div t.dayOfYear num).symm
  rw [hdiv]
  unfold claimedDayBucketStart
  push_cast
  ring

/-- Witness for `getTimeBucket_rule` at January 10, 00:00, label `7day`. -/
theorem getTimeBucket_rule_witness :
    (1 ≤ 7 ∧ 1 ≤ (10:ℕ) ∧ (0:ℕ) < 24 ∧ (0:ℕ) < 60 ∧ (0:ℕ) < 60 ∧ (0:ℕ) < 1000) ∧
    (getTimeBucket ⟨10, 0, 0, 0, 0⟩ 7 .day).1 =
      claimedDayBucketStart ⟨10, 0, 0, 0, 0⟩ 7 - 86400000 := by
  refine ⟨by decide, ?_⟩
  exact (getTimeBucket_rule ⟨10, 0, 0, 0, 0⟩ 7 (by decide) (by decide) (by decide)
    (by decide) (by decide) (by decide)).2.2.2.1

/-! ## Aggregation engine: per-user aggregates (`createUserAggregates`) -/

/-- One per-author summary from a classification result (`llmResult.perUser`
entry): the fields `createUserAggregates` folds.  Tag histograms are
total functions with implicit count 0 for absent tags, matching the JS
`(mergedTags[tag] || 0) + count` counter merge. -/
structure UserSummary where
  messageCount : ℕ
  sentimentAvg : ℚ
  tags : String → ℤ

/-- A `user_aggregates` row scoped to one (user, tracker). -/
structure UserAgg where
  totalMessages : ℕ
  avgSentiment : ℚ
  tagCounts : String → ℤ

/-- JS `Math.round`: round half toward `+∞`, i.e. `⌊q + 1/2⌋`. -/
def jround (q : ℚ) : ℤ := ⌊q + 1/2⌋

/-- The insert branch of `createUserAggregates` (no existing row): the
summary's values become the initial aggregate. -/
def insertUserAgg (u : UserSummary) : UserAgg :=
  { totalMessages := u.messageCount
    avgSentiment := u.sentimentAvg
    tagCounts := u.tags }

/-- The update branch of `createUserAggregates`: message counts are summed,
the sentiment is the weighted running mean rounded with `Math.round`, and
tag histograms are summed counter-wise. -/
def mergeUserAgg (a : UserAgg) (u : UserSummary) : UserAgg :=
  let newTotal := a.totalMessages + u.messageCount
  { totalMessages := newTotal
    avgSentiment := (jround ((a.avgSentiment * a.totalMessages +
        u.sentimentAvg * u.messageCount) / (newTotal : ℚ)) : ℤ)
    tagCounts := fun k => a.tagCounts k + u.tags k }

/-- Insert-or-update for one author summary. -/
def upsertUserAgg : Option UserAgg → UserSummary → UserAgg
  | none, u => insertUserAgg u
  | some a, u => mergeUserAgg a u

/-- Folding a sequence of summaries for the same (author, subject) through
repeated `createUserAggregates` calls. -/
def foldUserAggs (init : Option UserAgg) (l : List UserSummary) : Option UserAgg :=
  l.foldl (fun acc u => some (upsertUserAgg acc u)) init

/-- C8 counterexample: three summaries for the same author, each of one
message, with averages 0, 0 and 1 (and empty tag histograms).  Folding in
the order [0, 0, 1] gives running means 0, 0, round(1/3) = 0; folding the
permuted order [0, 1, 0] gives 0, round(1/2) = 1, round(2/3) = 1.  The
running mean rounds at every step, so the final average depends on fold
order: 0 versus 1. -/
theorem userFold_order_counterexample :
    ([⟨1, 0, fun _ => 0⟩, ⟨1, 0, fun _ => 0⟩, ⟨1, 1, fun _ => 0⟩] :
        List UserSummary).Perm
      [⟨1, 0, fun _ => 0⟩, ⟨1, 1, fun _ => 0⟩, ⟨1, 0, fun _ => 0⟩] ∧
    (foldUserAggs none
        [⟨1, 0, fun _ => 0⟩, ⟨1, 0, fun _ => 0⟩, ⟨1, 1, fun _ => 0⟩]).map
      (·.avgSentiment) = some 0 ∧
    (foldUserAggs none
        [⟨1, 0, fun _ => 0⟩, ⟨1, 1, fun _ => 0⟩, ⟨1, 0, fun _ => 0⟩]).map
      (·.avgSentiment) = some 1 ∧
    some (0 : ℚ) ≠ some 1 := by
  refine ⟨List.Perm.cons _ (List.Perm.swap _ _ _), ?_, ?_, by simp⟩
  · show some (((jround ((((jround ((0 * (1:ℚ) + 0 * 1) / 2) : ℤ) : ℚ) * 2 +
      1 * 1) / 3) : ℤ) : ℚ)) = some 0
    norm_num [jround]
  · show some (((jround ((((jround ((0 * (1:ℚ) + 1 * 1) / 2) : ℤ) : ℚ) * 2 +
      0 * 1) / 3) : ℤ) : ℚ)) = some 1
    norm_num [jround]

/-- C8 amended: folding any permutation of the same multiset of author
summaries yields the same total message count (sum) and the same
counter-wise tag sums; the *rounded* running mean, however, is not
order-independent (the counterexample's two orders differ by 1), because
`Math.round` is applied at every merge step rather than once at the end. -/
theorem userFold_perm_invariants (l₁ l₂ : List UserSummary) (h : l₁.Perm l₂) :
    (foldUserAggs none l₁).map (·.totalMessages) =
      (foldUserAggs none l₂).map (·.totalMessages) ∧
    ∀ k, (foldUserAggs none l₁).map (fun a => a.tagCounts k) =
      (foldUserAggs none l₂).map (fun a => a.tagCounts k) := by
  have hrun : ∀ (l : List UserSummary) (a : UserAgg),
      foldUserAggs (some a) l = some (l.foldl mergeUserAgg a) := by
    intro l
    induction l with
    | nil => intro a; rfl
    | cons u rest ih => intro a; exact ih (mergeUserAgg a u)
  have htotal : ∀ (l : List UserSummary) (a : UserAgg),
      (l.foldl mergeUserAgg a).totalMessages =
        a.totalMessages + (l.map (·.messageCount)).sum := by
    intro l
    induction l with
    | nil => intro a; simp
    | cons u rest ih =>
      intro a
      simp only [List.foldl_cons, List.map_cons, List.sum_cons, ih]
      show a.totalMessages + u.messageCount + _ = _
      omega
  have htags : ∀ (l : List UserSummary) (a : UserAgg) (k : String),
      (l.foldl mergeUserAgg a).tagCounts k =
        a.tagCounts k + (l.map (fun u => u.tags k)).sum := by
    intro l
    induction l with
    | nil => intro a k; simp
    | cons u rest ih =>
      intro a k
      simp only [List.foldl_cons, List.map_cons, List.sum_cons, ih]
      show (fun k' => a.tagCounts k' + u.tags k') k + _ = _
      dsimp only
      ring
  cases l₁ with
  | nil =>
    have : l₂ = [] := h.symm.eq_nil
    subst this
    exact ⟨rfl, fun _ => rfl⟩
  | cons u₁ t₁ =>
    cases l₂ with
    | nil => exact absurd h.length_eq (by simp)
    | cons u₂ t₂ =>
      have hsum : ((u₁ :: t₁).map (·.messageCount)).sum =
          ((u₂ :: t₂).map (·.messageCount)).sum :=
        (h.map (·.messageCount)).sum_eq
      have hsumt : ∀ k, ((u₁ :: t₁).map (fun u => u.tags k)).sum =
          ((u₂ :: t₂).map (fun u => u.tags k)).sum :=
        fun k => ((h.map (fun u => u.tags k)).sum_eq)
      constructor
      · show (foldUserAggs (some (insertUserAgg u₁)) t₁).map (·.totalMessages) =
          (foldUserAggs (some (insertUserAgg u₂)) t₂).map (·.totalMessages)
        rw [hrun, hrun]
        have e1 := htotal t₁ (insertUserAgg u₁)
        have e2 := htotal t₂ (insertUserAgg u₂)
        have hc := hsum
        simp only [List.map_cons, List.sum_cons] at hc
        have hb1 : (insertUserAgg u₁).totalMessages = u₁.messageCount := rfl
        have hb2 : (insertUserAgg u₂).totalMessages = u₂.messageCount := rfl
        show some ((t₁.foldl mergeUserAgg (insertUserAgg u₁)).totalMessages) =
          some ((t₂.foldl mergeUserAgg (insertUserAgg u₂)).totalMessages)
        refine congrArg some ?_
        rw [e1, e2, hb1, hb2]
        omega
      · intro k
        show (foldUserAggs (some (insertUserAgg u₁)) t₁).map (fun a => a.tagCounts k) =
          (foldUserAggs (some (insertUserAgg u₂)) t₂).map (fun a => a.tagCounts k)
        rw [hrun, hrun]
        have e1 := htags t₁ (insertUserAgg u₁) k
        have e2 := htags t₂ (insertUserAgg u₂) k
        have hc := hsumt k
        simp only [List.map_cons, List.sum_cons] at hc
        have hb1 : (insertUserAgg u₁).tagCounts k = u₁.tags k := rfl
        have hb2 : (insertUserAgg u₂).tagCounts k = u₂.tags k := rfl
        show some ((t₁.foldl mergeUserAgg (insertUserAgg u₁)).tagCounts k) =
          some ((t₂.foldl mergeUserAgg (insertUserAgg u₂)).tagCounts k)
        refine congrArg some ?_
        rw [e1, e2, hb1, hb2]
        omega

/-- Witness for `userFold_perm_invariants` on a concrete permutation. -/
theorem userFold_perm_invariants_witness :
    (foldUserAggs none ([⟨1, 5, fun _ => 2⟩, ⟨3, 7, fun _ => 4⟩] :
        List UserSummary)).map (·.totalMessages) =
      (foldUserAggs none ([⟨3, 7, fun _ => 4⟩, ⟨1, 5, fun _ => 2⟩] :
        List UserSummary)).map (·.totalMessages) := by
  exact (userFold_perm_invariants _ _ (List.Perm.swap _ _ _)).1

/-! ## Batch processor (`BatchProcessor`) -/

/-- A queued message as the batch processor reads it: its grouping key
(`trackerId`) and an identity. -/
structure BPMsg where
  trackerId : String
  msgId : String
  deriving DecidableEq, Repr

/-- `BatchProcessor.groupByTracker`: the messages filed under tracker `t`. -/
def groupByTracker (msgs : List BPMsg) (t : String) : List BPMsg :=
  msgs.filter (fun m => m.trackerId = t)

/-- Tracker keys of the queue, in JS object iteration order. -/
def trackerKeys (msgs : List BPMsg) : List String :=
  groupKeys (·.trackerId) msgs

/-- The `while (messages.length > 0) { messages.splice(0, this.batchSize) }`
loop: the list sliced into chunks of at most `size` messages.  A fuel
parameter makes the recursion structural; `fuel = l.length` suffices
whenever `size > 0` (each step consumes at least one element). -/
def chunkBatchesAux {α : Type} (fuel size : ℕ) (l : List α) : List (List α) :=
  match fuel with
  | 0 => []
  | fuel' + 1 =>
    if l.isEmpty then []
    else l.take size :: chunkBatchesAux fuel' size (l.drop size)

/-- The chunks dispatched for one ready tracker. -/
def chunkBatches {α : Type} (size : ℕ) (l : List α) : List (List α) :=
  chunkBatchesAux l.length size l

/-- Readiness of tracker `t` on a tick at time `now`:
`messages.length >= batchSize || now − queuedAt[t] >= batchTimeout`.
A missing `queuedAt` entry makes the timeout test false (`now − undefined`
is `NaN` in JS, and `NaN >= x` is false). -/
def readyTracker (queue : List BPMsg) (queuedAt : String → Option ℤ)
    (now timeout : ℤ) (size : ℕ) (t : String) : Bool :=
  decide (size ≤ (groupByTracker queue t).length) ||
    (match queuedAt t with
     | some q => decide (timeout ≤ now - q)
     | none => false)

/-- One `llm_batch_log` row as `processBatch`/`logBatch` writes it: the
tracker, the chunk's message count and the success flag (`success = 0`
plus the error message when the classifier call threw — the exception is
caught, never rethrown). -/
structure BatchLog where
  trackerId : String
  messageCount : ℕ
  success : Bool
  deriving DecidableEq, Repr

/-- The outcome of one `processBatches` tick. -/
structure TickResult where
  dispatched : List (String × List BPMsg)
  logs : List BatchLog
  newQueue : List BPMsg
  newQueuedAt : String → Option ℤ

/-- The trackers whose readiness test passes on this tick, in iteration
order. -/
def readyTrackers (queue : List BPMsg) (queuedAt : String → Option ℤ)
    (now timeout : ℤ) (size : ℕ) : List String :=
  (trackerKeys queue).filter (readyTracker queue queuedAt now timeout size)

/-- The `(trackerId, chunk)` pairs dispatched on this tick: for each ready
tracker, its whole group sliced into chunks of at most `size`, one
classifier invocation per chunk, in order. -/
def dispatchedBatches (queue : List BPMsg) (queuedAt : String → Option ℤ)
    (now timeout : ℤ) (size : ℕ) : List (String × List BPMsg) :=
  (readyTrackers queue queuedAt now timeout size).flatMap (fun t =>
    (chunkBatches size (groupByTracker queue t)).map (fun c => (t, c)))

/-- The non-empty-queue body of `processBatches`: dispatch every ready
tracker's chunks, delete those trackers' timers, and filter the queue down
to the trackers that still hold a timer (`queuedAt` timestamps are
`Date.now()` values, assumed nonzero, so JS truthiness of an entry
coincides with its presence). -/
def processBatchesGo (queue : List BPMsg) (queuedAt : String → Option ℤ)
    (now timeout : ℤ) (size : ℕ) (classify : String → List BPMsg → Bool) :
    TickResult :=
  let ready := readyTrackers queue queuedAt now timeout size
  let dispatched := dispatchedBatches queue queuedAt now timeout size
  let newQueuedAt : String → Option ℤ := fun t =>
    if t ∈ ready then none else queuedAt t
  let processed := (trackerKeys queue).filter (fun t => (newQueuedAt t).isNone)
  ⟨dispatched,
    dispatched.map (fun p => ⟨p.1, p.2.length, classify p.1 p.2⟩),
    queue.filter (fun m => decide (m.trackerId ∉ processed)),
    newQueuedAt⟩

/-- `BatchProcessor.processBatches` as a pure tick function (the
non-reentrant body guarded by `this.processing`).  `classify` models the
LLM call on one chunk: `true` = success, `false` = the call threw; either
way `processBatch` catches the error and logs, so the tick's control flow
does not depend on the outcome. -/
def processBatches (queue : List BPMsg) (queuedAt : String → Option ℤ)
    (now timeout : ℤ) (size : ℕ) (classify : String → List BPMsg → Bool) :
    TickResult :=
  if queue.isEmpty then ⟨[], [], queue, queuedAt⟩
  else processBatchesGo queue queuedAt now timeout size classify

/-- `BatchProcessor.queueMessages`: appends the incoming messages to the
shared queue and starts a timer for each tracker that does not have one. -/
def queueMessages (queue : List BPMsg) (queuedAt : String → Option ℤ)
    (msgs : List BPMsg) (now : ℤ) : List BPMsg × (String → Option ℤ) :=
  (queue ++ msgs,
   fun t =>
     match queuedAt t with
     | some q => some q
     | none => if t ∈ msgs.map (·.trackerId) then some now else none)

/-! ### Chunking lemmas -/

theorem chunkBatchesAux_join {α : Type} (size : ℕ) (hsize : 0 < size) :
    ∀ (fuel : ℕ) (l : List α), l.length ≤ fuel →
      (chunkBatchesAux fuel size l).flatten = l := by
  intro fuel
  induction fuel with
  | zero =>
    intro l hl
    have : l = [] := List.eq_nil_of_length_eq_zero (Nat.le_zero.mp hl)
    subst this
    rfl
  | succ fuel' ih =>
    intro l hl
    by_cases hemp : l.isEmpty
    · rw [List.isEmpty_iff] at hemp
      subst hemp
      rfl
    · rw [chunkBatchesAux, if_neg (by simp [hemp])]
      rw [List.flatten_cons, ih (l.drop size) (by simp; omega)]
      exact List.take_append_drop size l

theorem chunkBatchesAux_length_le {α : Type} (fuel size : ℕ) (l : List α) :
    ∀ c ∈ chunkBatchesAux fuel size l, c.length ≤ size := by
  induction fuel generalizing l with
  | zero => intro c hc; exact absurd hc (List.not_mem_nil c)
  | succ fuel' ih =>
    intro c hc
    rw [chunkBatchesAux] at hc
    by_cases hemp : l.isEmpty
    · rw [if_pos hemp] at hc
      exact absurd hc (List.not_mem_nil c)
    · rw [if_neg hemp] at hc
      rcases List.mem_cons.mp hc with h | h
      · subst h
        simp [List.length_take]
      · exact ih (l.drop size) c h

theorem chunkBatches_join {α : Type} (size : ℕ) (hsize : 0 < size) (l : List α) :
    (chunkBatches size l).flatten = l :=
  chunkBatchesAux_join size hsize l.length l le_rfl

theorem chunkBatches_eq_nil_iff {α : Type} (size : ℕ) (l : List α) :
    chunkBatches size l = [] ↔ l = [] := by
  constructor
  · intro h
    cases l with
    | nil => rfl
    | cons x xs =>
      rw [chunkBatches, List.length_cons, chunkBatchesAux, if_neg (by simp)] at h
      exact absurd h (by simp)
  · intro h
    subst h
    rfl

theorem chunkBatches_mem_of_mem {α : Type} (size : ℕ) (hsize : 0 < size)
    (l : List α) (c : List α) (hc : c ∈ chunkBatches size l) :
    ∀ m ∈ c, m ∈ l := by
  intro m hm
  rw [← chunkBatches_join size hsize l]
  exact List.mem_flatten.mpr ⟨c, hc, hm⟩

/-! ### Grouping lemmas -/

theorem groupKeys_foldl_nodup {α : Type} (key : α → String) (msgs : List α) :
    ∀ ks : List String, ks.Nodup →
      (msgs.foldl (fun ks m => if key m ∈ ks then ks else ks ++ [key m]) ks).Nodup := by
  induction msgs with
  | nil => intro ks h; exact h
  | cons m rest ih =>
    intro ks h
    simp only [List.foldl_cons]
    by_cases hmem : key m ∈ ks
    · rw [if_pos hmem]; exact ih ks h
    · rw [if_neg hmem]
      refine ih _ ?_
      simp [List.nodup_append, h, hmem]

theorem groupKeys_nodup {α : Type} (key : α → String) (msgs : List α) :
    (groupKeys key msgs).Nodup :=
  groupKeys_foldl_nodup key msgs [] List.nodup_nil

theorem mem_trackerKeys (msgs : List BPMsg) (t : String) :
    t ∈ trackerKeys msgs ↔ ∃ m ∈ msgs, m.trackerId = t :=
  mem_groupKeys _ msgs t

/-- Extracting one tracker's chunks out of the dispatch list: provided the
per-tracker generator tags every pair with its tracker and the ready list
has no duplicates, filtering the flattened dispatch by tracker recovers
exactly that tracker's pairs. -/
theorem bind_filter_eq (f : String → List (String × List BPMsg))
    (hf : ∀ t p, p ∈ f t → p.1 = t) :
    ∀ (ready : List String), ready.Nodup → ∀ t : String,
      (ready.flatMap f).filter (fun p => p.1 = t) =
        if t ∈ ready then f t else [] := by
  intro ready
  induction ready with
  | nil => intro _ t; simp
  | cons r rest ih =>
    intro hnd t
    have hr : r ∉ rest := (List.nodup_cons.mp hnd).1
    have hrest : rest.Nodup := (List.nodup_cons.mp hnd).2
    rw [List.flatMap_cons, List.filter_append, ih hrest t]
    by_cases hrt : r = t
    · subst hrt
      rw [List.filter_eq_self.mpr (fun p hp => by simp [hf r p hp]),
        if_neg hr, if_pos (List.mem_cons_self r rest)]
      simp
    · rw [List.filter_eq_nil_iff.mpr (fun p hp => by simp [hf r p hp, hrt])]
      simp only [List.nil_append]
      by_cases ht : t ∈ rest
      · rw [if_pos ht, if_pos (List.mem_cons_of_mem r ht)]
      · have hnt : t ∉ r :: rest := by
          simp only [List.mem_cons]
          rintro (h | h)
          · exact hrt h.symm
          · exact ht h
        rw [if_neg ht, if_neg hnt]

/-! ### Claims about the batch-processor tick -/

theorem readyTrackers_nodup (queue : List BPMsg) (queuedAt : String → Option ℤ)
    (now timeout : ℤ) (size : ℕ) :
    (readyTrackers queue queuedAt now timeout size).Nodup :=
  (groupKeys_nodup _ queue).filter _

theorem mem_readyTrackers (queue : List BPMsg) (queuedAt : String → Option ℤ)
    (now timeout : ℤ) (size : ℕ) (t : String) (q0 : ℤ)
    (hq : queuedAt t = some q0) (hk : t ∈ trackerKeys queue) :
    t ∈ readyTrackers queue queuedAt now timeout size ↔
      (size ≤ (groupByTracker queue t).length ∨ timeout ≤ now - q0) := by
  rw [readyTrackers, List.mem_filter]
  simp [hk, readyTracker, hq, Bool.or_eq_true, decide_eq_true_iff]

theorem dispatchedBatches_filter (queue : List BPMsg) (queuedAt : String → Option ℤ)
    (now timeout : ℤ) (size : ℕ) (t : String) :
    (dispatchedBatches queue queuedAt now timeout size).filter (fun p => p.1 = t) =
      if t ∈ readyTrackers queue queuedAt now timeout size then
        (chunkBatches size (groupByTracker queue t)).map (fun c => (t, c))
      else [] := by
  exact bind_filter_eq _
    (fun t' p hp => by
      obtain ⟨c, _, rfl⟩ := List.mem_map.mp hp
      rfl)
    _ (readyTrackers_nodup queue queuedAt now timeout size) t

/-- C3: on a scheduler tick, for every tracker `t` that has pending
messages and a running timer, batches are dispatched for `t` *iff*
`pendingCount ≥ batchSize` or the time since `t`'s first queued message
reached `batchTimeout`; when the condition holds, the dispatched chunks for
`t` are exactly `t`'s pending queue sliced into chunks of at most
`batchSize` (one classifier invocation per chunk, several chunks possible
in one tick), and `t`'s timer is cleared afterward.  Every dispatched chunk
(for any tracker) has at most `batchSize` messages. -/
theorem processBatches_dispatch (queue : List BPMsg) (queuedAt : String → Option ℤ)
    (now timeout : ℤ) (size : ℕ) (classify : String → List BPMsg → Bool)
    (t : String) (q0 : ℤ) (hsize : 0 < size)
    (hq : queuedAt t = some q0) (hpend : groupByTracker queue t ≠ []) :
    ((processBatches queue queuedAt now timeout size classify).dispatched.filter
        (fun p => p.1 = t) ≠ [] ↔
      (size ≤ (groupByTracker queue t).length ∨ timeout ≤ now - q0)) ∧
    ((size ≤ (groupByTracker queue t).length ∨ timeout ≤ now - q0) →
      ((processBatches queue queuedAt now timeout size classify).dispatched.filter
          (fun p => p.1 = t)).map (fun p => p.2) =
        chunkBatches size (groupByTracker queue t) ∧
      (((processBatches queue queuedAt now timeout size classify).dispatched.filter
          (fun p => p.1 = t)).map (fun p => p.2)).flatten = groupByTracker queue t ∧
      (processBatches queue queuedAt now timeout size classify).newQueuedAt t = none) ∧
    (∀ p ∈ (processBatches queue queuedAt now timeout size classify).dispatched,
      p.2.length ≤ size) := by
  obtain ⟨m, hmf⟩ := List.exists_mem_of_ne_nil _ hpend
  have hm : m ∈ queue := List.mem_of_mem_filter hmf
  have hmt : m.trackerId = t := by
    have := List.of_mem_filter hmf
    simpa using this
  have hne : queue.isEmpty = false := by
    cases queue with
    | nil => exact absurd hm (List.not_mem_nil m)
    | cons _ _ => rfl
  have hPB : processBatches queue queuedAt now timeout size classify =
      processBatchesGo queue queuedAt now timeout size classify := by
    rw [processBatches, hne]
    rfl
  have hk : t ∈ trackerKeys queue := (mem_trackerKeys queue t).mpr ⟨m, hm, hmt⟩
  have hready := mem_readyTrackers queue queuedAt now timeout size t q0 hq hk
  have hdisp : (processBatchesGo queue queuedAt now timeout size classify).dispatched =
      dispatchedBatches queue queuedAt now timeout size := rfl
  have hqa : (processBatchesGo queue queuedAt now timeout size classify).newQueuedAt =
      fun t' => if t' ∈ readyTrackers queue queuedAt now timeout size then none
        else queuedAt t' := rfl
  refine ⟨?_, ?_, ?_⟩
  · rw [hPB, hdisp, dispatchedBatches_filter]
    rw [← hready]
    by_cases hmem : t ∈ readyTrackers queue queuedAt now timeout size
    · simp only [if_pos hmem]
      constructor
      · intro _; exact hmem
      · intro _
        intro hmapnil
        rw [List.map_eq_nil_iff] at hmapnil
        exact hpend ((chunkBatches_eq_nil_iff size _).mp hmapnil)
    · simp only [if_neg hmem]
      constructor
      · intro hcon; exact absurd rfl hcon
      · intro hcon; exact absurd hcon hmem
  · intro hcond
    have hmem : t ∈ readyTrackers queue queuedAt now timeout size := hready.mpr hcond
    rw [hPB, hdisp, dispatchedBatches_filter, if_pos hmem]
    have hcomp : ((fun p : String × List BPMsg => p.2) ∘
        (fun c : List BPMsg => ((t, c) : String × List BPMsg))) = id := rfl
    refine ⟨?_, ?_, ?_⟩
    · rw [List.map_map, hcomp, List.map_id]
    · rw [List.map_map, hcomp, List.map_id]
      exact chunkBatches_join size hsize _
    · rw [hqa]
      simp only [if_pos hmem]
  · intro p hp
    rw [hPB, hdisp] at hp
    obtain ⟨t', _, hp'⟩ := List.mem_flatMap.mp hp
    obtain ⟨c, hc, rfl⟩ := List.mem_map.mp hp'
    exact chunkBatchesAux_length_le _ size _ c hc

/-- Witness demo queue for the batch-processor claims: three messages for
tracker `t1`, batch size 2, timer started at 0, tick at `now = 5`,
timeout 100 (so readiness holds by size, not by timeout). -/
def demoQueue : List BPMsg := [⟨"t1", "a"⟩, ⟨"t1", "b"⟩, ⟨"t1", "c"⟩]

/-- Witness demo timer map: tracker `t1` first queued at time 0. -/
def demoQueuedAt : String → Option ℤ := fun s => if s = "t1" then some 0 else none

/-- Witness for `processBatches_dispatch` at the demo input, together with
the concretely evaluated dispatch: two chunks `[a, b]` and `[c]`. -/
theorem processBatches_dispatch_witness :
    ((processBatches demoQueue demoQueuedAt 5 100 2 (fun _ _ => true)).dispatched.filter
        (fun p => p.1 = "t1") ≠ [] ↔
      (2 ≤ (groupByTracker demoQueue "t1").length ∨ (100 : ℤ) ≤ 5 - 0)) ∧
    (processBatches demoQueue demoQueuedAt 5 100 2 (fun _ _ => true)).dispatched =
      [("t1", [⟨"t1", "a"⟩, ⟨"t1", "b"⟩]), ("t1", [⟨"t1", "c"⟩])] ∧
    (processBatches demoQueue demoQueuedAt 5 100 2 (fun _ _ => true)).newQueuedAt "t1" =
      none := by
  refine ⟨?_, by decide, ?_⟩
  · exact (processBatches_dispatch demoQueue demoQueuedAt 5 100 2 (fun _ _ => true)
      "t1" 0 (by decide) (by decide) (by decide)).1
  · exact ((processBatches_dispatch demoQueue demoQueuedAt 5 100 2 (fun _ _ => true)
      "t1" 0 (by decide) (by decide) (by decide)).2.1 (by decide)).2.2

/-- C6: when the classifier call for a chunk fails, the chunk is logged as
a failed batch and its messages are consumed anyway.  Concretely: (1) every
dispatched chunk produces exactly one log entry recording the classifier
outcome (failures are caught and logged, never rethrown); (2) every message
of every dispatched chunk — in particular of a failed one — is absent from
the post-tick queue; (3) the post-tick queue only shrinks, so no message
re-enters it during a tick; (4) the tick's dispatch, queue and timer
updates are identical for any classifier outcome (a failure changes only
the success flags in the log); (5) `queueMessages` appends exactly its
input, so a dropped message can only reappear if the upstream redelivers
it as a fresh message. -/
theorem processBatches_failure_consumes (queue : List BPMsg)
    (queuedAt : String → Option ℤ) (now timeout : ℤ) (size : ℕ)
    (classify : String → List BPMsg → Bool) (hsize : 0 < size) :
    ((processBatches queue queuedAt now timeout size classify).logs =
      (processBatches queue queuedAt now timeout size classify).dispatched.map
        (fun p => ⟨p.1, p.2.length, classify p.1 p.2⟩)) ∧
    (∀ p ∈ (processBatches queue queuedAt now timeout size classify).dispatched,
      ∀ m ∈ p.2, m ∉ (processBatches queue queuedAt now timeout size classify).newQueue) ∧
    (∀ m ∈ (processBatches queue queuedAt now timeout size classify).newQueue,
      m ∈ queue) ∧
    (∀ classify',
      (processBatches queue queuedAt now timeout size classify').dispatched =
        (processBatches queue queuedAt now timeout size classify).dispatched ∧
      (processBatches queue queuedAt now timeout size classify').newQueue =
        (processBatches queue queuedAt now timeout size classify).newQueue ∧
      (processBatches queue queuedAt now timeout size classify').newQueuedAt =
        (processBatches queue queuedAt now timeout size classify).newQueuedAt) ∧
    (∀ msgs : List BPMsg, (queueMessages queue queuedAt msgs now).1 = queue ++ msgs) := by
  by_cases hemp : queue.isEmpty
  · have hPB : ∀ cl, processBatches queue queuedAt now timeout size cl =
        ⟨[], [], queue, queuedAt⟩ := by
      intro cl
      rw [processBatches, if_pos hemp]
    refine ⟨by rw [hPB]; rfl, ?_, ?_, ?_, fun msgs => rfl⟩
    · intro p hp
      rw [hPB] at hp
      exact absurd hp (List.not_mem_nil p)
    · intro m hm
      rw [hPB] at hm
      exact hm
    · intro cl'
      rw [hPB, hPB]
      exact ⟨rfl, rfl, rfl⟩
  · have hPB : ∀ cl, processBatches queue queuedAt now timeout size cl =
        processBatchesGo queue queuedAt now timeout size cl := by
      intro cl
      rw [processBatches, if_neg hemp]
    have hdisp : ∀ cl, (processBatchesGo queue queuedAt now timeout size cl).dispatched =
        dispatchedBatches queue queuedAt now timeout size := fun _ => rfl
    have hqueue : ∀ cl, (processBatchesGo queue queuedAt now timeout size cl).newQueue =
        queue.filter (fun m => decide (m.trackerId ∉
          (trackerKeys queue).filter (fun t =>
            (if t ∈ readyTrackers queue queuedAt now timeout size then none
              else queuedAt t).isNone))) := fun _ => rfl
    refine ⟨by rw [hPB]; rfl, ?_, ?_, ?_, fun msgs => rfl⟩
    · intro p hp m hm hmem
      rw [hPB, hdisp] at hp
      rw [hPB, hqueue] at hmem
      obtain ⟨t', ht', hp'⟩ := List.mem_flatMap.mp hp
      obtain ⟨c, hc, rfl⟩ := List.mem_map.mp hp'
      have hmg : m ∈ groupByTracker queue t' :=
        chunkBatches_mem_of_mem size hsize _ c hc m hm
      have hmt : m.trackerId = t' := by
        have := List.of_mem_filter hmg
        simpa using this
      have hproc : m.trackerId ∈ (trackerKeys queue).filter (fun t =>
          (if t ∈ readyTrackers queue queuedAt now timeout size then none
            else queuedAt t).isNone) := by
        rw [List.mem_filter]
        refine ⟨?_, ?_⟩
        · rw [hmt]
          exact List.mem_of_mem_filter ht'
        · rw [hmt, if_pos ht']
          rfl
      have := List.of_mem_filter hmem
      rw [decide_eq_true_iff] at this
      exact this hproc
    · intro m hm
      rw [hPB, hqueue] at hm
      exact List.mem_of_mem_filter hm
    · intro cl'
      rw [hPB, hPB]
      exact ⟨rfl, rfl, rfl⟩

/-- Witness for `processBatches_failure_consumes`: with a classifier that
always fails, the demo queue's first message is logged in a failed batch
and is gone from the post-tick queue. -/
theorem processBatches_failure_consumes_witness :
    (processBatches demoQueue demoQueuedAt 5 100 2 (fun _ _ => false)).logs =
      (processBatches demoQueue demoQueuedAt 5 100 2 (fun _ _ => false)).dispatched.map
        (fun p => ⟨p.1, p.2.length, false⟩) ∧
    (⟨"t1", "a"⟩ : BPMsg) ∉
      (processBatches demoQueue demoQueuedAt 5 100 2 (fun _ _ => false)).newQueue := by
  have h := processBatches_failure_consumes demoQueue demoQueuedAt 5 100 2
    (fun _ _ => false) (by decide)
  refine ⟨h.1, ?_⟩
  exact h.2.1 ("t1", [⟨"t1", "a"⟩, ⟨"t1", "b"⟩]) (by decide) ⟨"t1", "a"⟩ (by decide)

/-! ## Telegram bot manager (`TelegramBotManager.routeMessage`) -/

/-- The routing-relevant fields of an incoming Telegram event:
`msg.chat.id`, `msg.chat.username` and `msg.message_thread_id`. -/
structure TgEvent where
  chatId : ℤ
  chatUsername : Option String
  threadId : Option ℕ

/-- One entry of the manager's `registrations` map (keyed by `sourceId` in
the source, hence no duplicate source ids): the chat identifier and the
topic filter (`none` = all topics, the "any" selector). -/
structure TgRegistration where
  sourceId : String
  chatIdentifier : String
  topicId : Option ℕ
  deriving DecidableEq, Repr

/-- `const messageTopicId = msg.message_thread_id || 1`: an absent thread
id (and a thread id of 0, also falsy) canonicalizes to the default topic
id 1. -/
def messageTopicId (e : TgEvent) : ℕ :=
  match e.threadId with
  | none => 1
  | some 0 => 1
  | some n => n

/-- `msg.chat.username ? `@${msg.chat.username}` : null`. -/
def eventChatUsername (e : TgEvent) : Option String :=
  e.chatUsername.map (fun u => "@" ++ u)

/-- `TelegramBotManager.chatMatches`: an identifier starting with `@`
(first character `'@'`, i.e. `chatIdentifier.startsWith('@')`) is compared
against the prefixed chat username, otherwise against the decimal chat
id. -/
def chatMatches (ident : String) (chatId : ℤ) (chatUsername : Option String) : Bool :=
  if ident.data.head? = some '@' then decide (chatUsername = some ident)
  else decide (ident = toString chatId)

/-- `TelegramBotManager.routeMessage`: the registrations whose callback is
invoked for event `e` (chat matches, and the topic filter is `null` or
equals the event's canonical topic id). -/
def deliveredTo (regs : List TgRegistration) (e : TgEvent) : List TgRegistration :=
  regs.filter (fun r =>
    chatMatches r.chatIdentifier e.chatId (eventChatUsername e) &&
      decide (r.topicId = none ∨ r.topicId = some (messageTopicId e)))

/-- C9: an event carrying no topic/thread identifier is treated as the
default topic (canonical id 1): among the registered sources it is
delivered exactly to those whose chat matches and whose selector is the
explicit default topic (`topicId = some 1`) or all-topics
(`topicId = none`), and to no other source. -/
theorem defaultTopic_routing (regs : List TgRegistration) (e : TgEvent)
    (r : TgRegistration) (hthread : e.threadId = none) (hr : r ∈ regs) :
    r ∈ deliveredTo regs e ↔
      (chatMatches r.chatIdentifier e.chatId (eventChatUsername e) = true ∧
        (r.topicId = some 1 ∨ r.topicId = none)) := by
  have htid : messageTopicId e = 1 := by
    rw [messageTopicId, hthread]
  rw [deliveredTo, List.mem_filter]
  simp only [hr, true_and, Bool.and_eq_true, decide_eq_true_iff, htid]
  constructor
  · rintro ⟨h1, h2 | h2⟩
    · exact ⟨h1, Or.inr h2⟩
    · exact ⟨h1, Or.inl h2⟩
  · rintro ⟨h1, h2 | h2⟩
    · exact ⟨h1, Or.inr h2⟩
    · exact ⟨h1, Or.inl h2⟩

/-- Witness for `defaultTopic_routing`: an event with no thread id in chat
`-100`, with three registered sources — explicit default topic (id 1),
all-topics (`null`), and topic 295370 — the first two receive it, the
third does not. -/
theorem defaultTopic_routing_witness :
    ((⟨"s1", "-100", some 1⟩ : TgRegistration) ∈
      deliveredTo [⟨"s1", "-100", some 1⟩, ⟨"s2", "-100", none⟩,
        ⟨"s3", "-100", some 295370⟩] ⟨-100, none, none⟩ ↔
      (chatMatches "-100" (-100) (eventChatUsername ⟨-100, none, none⟩) = true ∧
        ((some 1 : Option ℕ) = some 1 ∨ (some 1 : Option ℕ) = none))) ∧
    deliveredTo [⟨"s1", "-100", some 1⟩, ⟨"s2", "-100", none⟩,
        ⟨"s3", "-100", some 295370⟩] ⟨-100, none, none⟩ =
      [⟨"s1", "-100", some 1⟩, ⟨"s2", "-100", none⟩] := by
  refine ⟨?_, by decide⟩
  exact defaultTopic_routing _ _ _ rfl (by decide)

/-! ## Telegram connector (`TelegramConnector` + `BaseConnector` cursors) -/

/-- The queueing-relevant fields of a raw Telegram message:
`msg.chat.id`, `msg.message_id` and `msg.text` (author/metadata fields do
not influence whether the message is emitted). -/
structure TgRawMsg where
  chatId : ℤ
  messageId : ℕ
  text : Option String

/-- A normalized message as far as emission identity is concerned. -/
structure TgNormMsg where
  id : String
  text : String
  deriving DecidableEq, Repr

/-- The dedup key: `` `${msg.chat.id}:${msg.message_id}` ``. -/
def telegramMessageKey (m : TgRawMsg) : String :=
  toString m.chatId ++ ":" ++ toString m.messageId

/-- The connector's per-instance mutable state: the in-memory dedup set
`seenMessages` and the pending buffer `messageQueue`.  Both are
initialized empty by the constructor (`new Set()`, `[]`), so this is also
the state right after a process restart. -/
structure TgConnState where
  seenMessages : List String
  messageQueue : List TgNormMsg
  deriving DecidableEq, Repr

/-- The state of a freshly constructed `TelegramConnector` — in
particular, the state after a restart.  `connect()` only registers a
live-message callback with the shared bot manager and updates health; it
never calls `getCursor`, so no field of this state depends on the cursor
store. -/
def freshTelegramState : TgConnState := ⟨[], []⟩

/-- `TelegramConnector.handleMessage`: skip text-less messages, drop
in-memory duplicates, otherwise normalize and queue (the cursor upsert
that follows records — but is never consulted for — the accepted id).
Returns the new state and whether the message was emitted. -/
def handleMessage (st : TgConnState) (m : TgRawMsg) : TgConnState × Bool :=
  match m.text with
  | none => (st, false)
  | some txt =>
    let mid := telegramMessageKey m
    if mid ∈ st.seenMessages then (st, false)
    else (⟨st.seenMessages ++ [mid], st.messageQueue ++ [⟨mid, txt⟩]⟩, true)

/-- A `cursors` table row (the fields `updateCursor` persists). -/
structure CursorRow where
  cursorValue : String
  lastMessageId : Option String
  deriving DecidableEq, Repr

/-- A persisted checkpoint store that — before the crash — durably
recorded cursor `"10"` / message id `"5:10"` for source `src1`. -/
def crashedCursorStore : String → Option CursorRow :=
  fun s => if s = "src1" then some ⟨"10", some "5:10"⟩ else none

/-- C7 counterexample: after a restart, the Telegram connector's state is
`freshTelegramState` (empty dedup set, empty buffer) and its connect path
never reads the persisted cursor (`getCursor` is only ever called by the
Twitter polling connector).  So when the upstream redelivers the message
`chat 5 / id 10` — whose id `"5:10"` the store `crashedCursorStore` had
durably checkpointed before the crash — `handleMessage` re-emits it: the
cursor does not prevent re-emission, refuting "never re-emits a message
whose id was already durably checkpointed". -/
theorem telegramReplay_counterexample :
    crashedCursorStore "src1" = some ⟨"10", some "5:10"⟩ ∧
    telegramMessageKey ⟨5, 10, some "hello"⟩ = "5:10" ∧
    (handleMessage freshTelegramState ⟨5, 10, some "hello"⟩).2 = true ∧
    (handleMessage freshTelegramState ⟨5, 10, some "hello"⟩).1.messageQueue.map
      (·.id) = ["5:10"] := by
  refine ⟨by decide, by decide, by decide, by decide⟩

/-- C7 amended: a Telegram source does *not* resume from its persisted
cursor.  After a restart the connector's dedup set and buffer are empty
and `connect()` only registers a live callback (no `getCursor` call), so
*every* incoming text message is accepted and queued — including one whose
id was durably checkpointed before the crash — regardless of any cursor
store contents; only the Twitter polling connector passes its cursor
upstream (as `since_id`) to avoid re-fetching older messages. -/
theorem telegramRestart_no_cursor_resume (m : TgRawMsg) (txt : String)
    (htxt : m.text = some txt) :
    (handleMessage freshTelegramState m).2 = true ∧
    (handleMessage freshTelegramState m).1.messageQueue =
      [⟨telegramMessageKey m, txt⟩] ∧
    (handleMessage freshTelegramState m).1.seenMessages = [telegramMessageKey m] := by
  simp [handleMessage, htxt, freshTelegramState]

/-- Witness for `telegramRestart_no_cursor_resume` at the redelivered
message of the counterexample scenario. -/
theorem telegramRestart_no_cursor_resume_witness :
    (handleMessage freshTelegramState ⟨5, 10, some "hello"⟩).2 = true ∧
    (handleMessage freshTelegramState ⟨5, 10, some "hello"⟩).1.messageQueue =
      [⟨telegramMessageKey ⟨5, 10, some "hello"⟩, "hello"⟩] ∧
    (handleMessage freshTelegramState ⟨5, 10, some "hello"⟩).1.seenMessages =
      [telegramMessageKey ⟨5, 10, some "hello"⟩] :=
  telegramRestart_no_cursor_resume ⟨5, 10, some "hello"⟩ "hello" rfl

end SaltIndex
